import Mathlib

/-!
Verification of the UTS handbook chatbot RAG pipeline.

This file gives a shallow embedding, in Lean, of the core chunking,
filtering, index-writing, context-assembly and orchestration logic of the
repository (files `src/rag/ingest_courses.py`, `src/rag/save_kb_files.py`,
`src/rag/upsert_to_qdrant_from_files.py`, `src/rag/query_hybrid_rag.py`,
`src/rag/query_with_preprocessing.py`, `src/api_server.py`) and proves or
refutes the specified properties of that logic.

Conventions:
* Python `str` values are modelled as Lean `String` (a list of characters);
  whitespace, case folding and stripping are modelled over the ASCII range.
* Python's `uuid.uuid5(NAMESPACE_URL, key)` is treated as an opaque function
  `String → String` passed as a parameter to the definitions that use it.
* Fallible code is modelled with `Except String`; `raise SystemExit(msg)`
  becomes `Except.error msg`.
* External services (embedding model, Qdrant, Ollama) are opaque parameters.
-/

namespace Handbook

/-! ### Python string primitives -/

/-- ASCII whitespace, as recognised by Python `str.strip` / the regex `\s`. -/
def pyWs (c : Char) : Bool :=
  c = ' ' || c = '\t' || c = '\n' || c = '\r' || c = '\x0b' || c = '\x0c'

/-- Strip `pyWs` characters from both ends of a character list. -/
def stripChars (l : List Char) : List Char :=
  ((l.dropWhile pyWs).reverse.dropWhile pyWs).reverse

/-- Python `str.strip()` (ASCII whitespace). -/
def pyStrip (s : String) : String := ⟨stripChars s.data⟩

/-- Python `str.upper()` (ASCII case folding). -/
def pyUpper (s : String) : String := ⟨s.data.map Char.toUpper⟩

/-- Python `str.lower()` restricted to one character (used for `re.I`). -/
def lowerChar (c : Char) : Char := c.toLower

/-- The decimal digit character for `n < 10`. -/
def digitChar (n : Nat) : Char :=
  match n with
  | 0 => '0' | 1 => '1' | 2 => '2' | 3 => '3' | 4 => '4'
  | 5 => '5' | 6 => '6' | 7 => '7' | 8 => '8' | _ => '9'

/-- Accumulator-style decimal rendering of a natural number. -/
def decCharsAux : Nat → List Char → List Char
  | n, acc =>
    if h : n < 10 then digitChar n :: acc
    else decCharsAux (n / 10) (digitChar (n % 10) :: acc)
  termination_by n _ => n
  decreasing_by
    exact Nat.div_lt_self (Nat.lt_of_lt_of_le (by norm_num) (Nat.le_of_not_lt h)) (by norm_num)

/-- The decimal digits of `n`, most significant first: Python `str(n)` for `n ≥ 0`. -/
def decChars (n : Nat) : List Char := decCharsAux n []

/-- Python `str(n)` for a natural number. -/
def decStr (n : Nat) : String := ⟨decChars n⟩

/-- Decimal evaluation of a character list, inverse to `decChars`. -/
def decVal (l : List Char) : Nat :=
  l.foldl (fun a c => 10 * a + (c.toNat - 48)) 0

theorem decCharsAux_eq_append (n : Nat) (acc : List Char) :
    decCharsAux n acc = decChars n ++ acc := by
  induction n using Nat.strong_induction_on generalizing acc with
  | _ n ih =>
    by_cases h : n < 10
    · simp [decChars, decCharsAux, h]
    · have hlt : n / 10 < n :=
        Nat.div_lt_self (Nat.lt_of_lt_of_le (by norm_num) (Nat.le_of_not_lt h)) (by norm_num)
      conv_rhs => rw [decChars, decCharsAux]
      rw [decCharsAux]
      simp only [h, dite_false]
      rw [ih _ hlt, ih _ hlt, List.append_assoc, List.singleton_append]

theorem digitChar_toNat (n : Nat) (h : n < 10) : (digitChar n).toNat = 48 + n := by
  interval_cases n <;> decide

theorem digitChar_isDigit (n : Nat) (h : n < 10) : (digitChar n).isDigit = true := by
  interval_cases n <;> decide

theorem decVal_append_singleton (l : List Char) (c : Char) :
    decVal (l ++ [c]) = 10 * decVal l + (c.toNat - 48) := by
  simp [decVal, List.foldl_append]

theorem decVal_decChars (n : Nat) : decVal (decChars n) = n := by
  induction n using Nat.strong_induction_on with
  | _ n ih =>
    by_cases h : n < 10
    · simp [decChars, decCharsAux, h, decVal, digitChar_toNat n h]
    · have hlt : n / 10 < n :=
        Nat.div_lt_self (Nat.lt_of_lt_of_le (by norm_num) (Nat.le_of_not_lt h)) (by norm_num)
      rw [decChars, decCharsAux]
      simp only [h, dite_false]
      rw [decCharsAux_eq_append, decVal_append_singleton, ih _ hlt,
        digitChar_toNat _ (Nat.mod_lt _ (by norm_num))]
      omega

theorem decChars_injective : Function.Injective decChars := by
  intro a b h
  have := congrArg decVal h
  rwa [decVal_decChars, decVal_decChars] at this

theorem decChars_all_digit (n : Nat) : ∀ c ∈ decChars n, c.isDigit = true := by
  induction n using Nat.strong_induction_on with
  | _ n ih =>
    by_cases h : n < 10
    · simp [decChars, decCharsAux, h]
      exact digitChar_isDigit n h
    · have hlt : n / 10 < n :=
        Nat.div_lt_self (Nat.lt_of_lt_of_le (by norm_num) (Nat.le_of_not_lt h)) (by norm_num)
      rw [decChars, decCharsAux]
      simp only [h, dite_false]
      rw [decCharsAux_eq_append]
      intro c hc
      rcases List.mem_append.mp hc with h1 | h1
      · exact ih _ hlt c h1
      · simp at h1
        subst h1
        exact digitChar_isDigit _ (Nat.mod_lt _ (by norm_num))

theorem pipe_not_mem_decChars (n : Nat) : '|' ∉ decChars n := by
  intro hmem
  have := decChars_all_digit n '|' hmem
  simp [Char.isDigit] at this

/-- Splitting a character list at a separator that occurs in neither prefix is
unambiguous. -/
theorem append_sep_inj {l1 l2 r1 r2 : List Char} {sep : Char}
    (h1 : sep ∉ l1) (h2 : sep ∉ l2)
    (h : l1 ++ sep :: r1 = l2 ++ sep :: r2) : l1 = l2 ∧ r1 = r2 := by
  induction l1 generalizing l2 with
  | nil =>
    cases l2 with
    | nil => simpa using h
    | cons b bs =>
      simp at h
      exact absurd (h.1 ▸ List.mem_cons_self b bs) (h.1 ▸ h2)
  | cons a as ih =>
    cases l2 with
    | nil =>
      simp at h
      exact absurd (h.1 ▸ List.mem_cons_self a as) (h.1 ▸ h1)
    | cons b bs =>
      simp at h
      obtain ⟨hab, htail⟩ := h
      have := ih (fun hm => h1 (List.mem_cons_of_mem a hm))
        (fun hm => h2 (hab ▸ List.mem_cons_of_mem b hm)) htail
      exact ⟨by simp [hab, this.1], this.2⟩

/-! ### `src/rag/ingest_courses.py`: course-code resolution -/

/-- `re.match(r'^[C]\d{5}$', code, re.IGNORECASE)` as a total check:
the string is the letter `C` or `c` followed by exactly five decimal digits. -/
def matchesCourseCodeRe (s : String) : Bool :=
  match s.data with
  | c :: ds => (c = 'C' || c = 'c') && ds.length = 5 && ds.all Char.isDigit
  | [] => false

/-- Try to match `/courses/[cC]\d{5}` at the head of `l`; on success return the
captured group `[cC]\d{5}` uppercased (`match.group(1).upper()`). -/
def coursesCodeAt (l : List Char) : Option String :=
  match l.dropPrefix? "/courses/".data with
  | none => none
  | some rest =>
    match rest with
    | c :: ds =>
      if (c = 'c' || c = 'C') && (ds.take 5).length = 5 && (ds.take 5).all Char.isDigit then
        some ⟨'C' :: ds.take 5⟩
      else none
    | [] => none

/-- Leftmost match of `re.search(r'/courses/([cC]\d{5})', ...)` over `l`. -/
def searchCoursesCode : List Char → Option String
  | [] => none
  | c :: rest =>
    match coursesCodeAt (c :: rest) with
    | some code => some code
    | none => searchCoursesCode rest

/-- `extract_course_code_from_url` from `ingest_courses.py`: extract a course
code of shape `/courses/[cC]\d{5}` from a URL, uppercased, else `None`. -/
def extract_course_code_from_url (url : String) : Option String :=
  if url = "" then none
  else searchCoursesCode url.data

/-! ### `src/rag/ingest_courses.py`: field values and the course record -/

/-- A `{number, text}` learning-outcome record; `number` holds Python
`str(item.get('number', ''))` and `text` holds `item.get('text', '')`. -/
structure NTItem where
  number : String
  text : String
deriving DecidableEq, Repr

/-- A Python value stored in a course-record field.  The shapes that
`format_field_value` distinguishes are: `None`, a string, a list of scalar
strings, a list of `{number, text}` records (learning outcomes), and a mapping
of strings. -/
inductive PyVal where
  | none
  | str (s : String)
  | listStr (xs : List String)
  | listNT (xs : List NTItem)
  | dict (kvs : List (String × String))
deriving DecidableEq, Repr

/-- Python truthiness of a field value. -/
def PyVal.truthy : PyVal → Bool
  | .none => false
  | .str s => s != ""
  | .listStr xs => xs != []
  | .listNT xs => xs != []
  | .dict kvs => kvs != []

/-- Minimal JSON string escaping as performed by `json.dumps`. -/
def jsonEscape (s : String) : String :=
  ⟨s.data.flatMap (fun c =>
    if c = '"' then ['\\', '"']
    else if c = '\\' then ['\\', '\\']
    else [c])⟩

/-- `json.dumps(value, ensure_ascii=False)` for a string-valued mapping. -/
def jsonDumps (kvs : List (String × String)) : String :=
  "\x7b" ++ String.intercalate ", "
    (kvs.map (fun kv => "\"" ++ jsonEscape kv.1 ++ "\": \"" ++ jsonEscape kv.2 ++ "\"")) ++ "\x7d"

/-- `format_field_value` from `ingest_courses.py`. -/
def format_field_value : PyVal → String
  | .none => ""
  | .str s => s
  | .listStr [] => ""
  | .listStr xs => String.intercalate ", " (xs.filter (· ≠ ""))
  | .listNT [] => ""
  | .listNT xs =>
    String.intercalate "\n"
      ((xs.filter (·.text ≠ "")).map (fun it => it.number ++ ". " ++ it.text))
  | .dict kvs => jsonDumps kvs

/-- Python `str(value)` for the field values above (list and dict shapes are
rendered in Python `repr` style). -/
def PyVal.pyStr : PyVal → String
  | .none => "None"
  | .str s => s
  | .listStr xs =>
    "[" ++ String.intercalate ", " (xs.map (fun s => "\x27" ++ s ++ "\x27")) ++ "]"
  | .listNT xs =>
    "[" ++ String.intercalate ", "
      (xs.map (fun it =>
        "\x7b\x27number\x27: \x27" ++ it.number ++ "\x27, \x27text\x27: \x27"
          ++ it.text ++ "\x27\x7d")) ++ "]"
  | .dict kvs =>
    "\x7b" ++ String.intercalate ", "
      (kvs.map (fun kv => "\x27" ++ kv.1 ++ "\x27: \x27" ++ kv.2 ++ "\x27")) ++ "\x7d"

/-- A course record, as read from one course JSON file.  `Option` encodes a
possibly missing key; list-valued attributes default to `[]` as the code's
`.get(..., [])` does. -/
structure CourseRecord where
  course_code : Option String := .none
  course_name : Option String := .none
  metadata_source_url : Option String := .none
  overview : PyVal := .none
  admission_requirements : PyVal := .none
  career_options : PyVal := .none
  course_structure : PyVal := .none
  professional_recognition : PyVal := .none
  inherent_requirements : PyVal := .none
  structure_notes : PyVal := .none
  notes : PyVal := .none
  learning_outcomes : List NTItem := []
  credit_points : Option String := .none
  cricos_code : Option String := .none
  faculty : List String := []
  study_level : Option String := .none
  duration_fulltime : Option String := .none
  duration_parttime : Option String := .none
  location : List String := []
  awards : List String := []
deriving DecidableEq, Repr

/-- `get_course_code` from `ingest_courses.py`: JSON value if it matches the
`[C]\d{5}` pattern, else the source URL, else the *URL pattern applied to the
filename*, else the raw JSON value uppercased (`UNKNOWN` when the key is
absent). -/
def get_course_code (rec : CourseRecord) (filename : String) : String :=
  let code := pyStrip (rec.course_code.getD "")
  if code ≠ "" && matchesCourseCodeRe code then pyUpper code
  else
    let source_url := rec.metadata_source_url.getD ""
    match extract_course_code_from_url source_url with
    | some c => c
    | Option.none =>
      match extract_course_code_from_url filename with
      | some c => c
      | Option.none => pyUpper (pyStrip (rec.course_code.getD "UNKNOWN"))

/-! ### `src/rag/ingest_courses.py`: chunk identity -/

/-- The composite key string hashed by `make_chunk_uuid`. -/
def chunkKey (course_code chunk_type : String) (chunk_index : Nat) (unique_id : String) :
    String :=
  "course|" ++ course_code ++ "|type:" ++ chunk_type ++ "|chunk:" ++ decStr chunk_index
    ++ "|unique:" ++ unique_id

/-- `make_chunk_uuid` from `ingest_courses.py`.  `uuid5` stands for the opaque
`str(uuid.uuid5(uuid.NAMESPACE_URL, key))`. -/
def make_chunk_uuid (uuid5 : String → String) (course_code chunk_type : String)
    (chunk_index : Nat) (unique_id : String) : String :=
  uuid5 (chunkKey course_code chunk_type chunk_index unique_id)

/-! ### `src/rag/ingest_courses.py`: the field chunker -/

/-- The last path component of a filename (`PurePath.name` behaviour for the
strings the chunker receives). -/
def lastComponent (l : List Char) : List Char :=
  (l.reverse.takeWhile (· ≠ '/')).reverse

/-- `Path(filename).stem`: the final component minus its suffix; a dot at
position 0 or at the very end does not start a suffix. -/
def pathStem (filename : String) : String :=
  let name := lastComponent filename.data
  let rev := name.reverse
  let j := (rev.takeWhile (· ≠ '.')).length
  if 1 ≤ j ∧ j + 1 < name.length then ⟨(rev.drop (j + 1)).reverse⟩ else ⟨name⟩

/-- Python `str.split(sep)` for a one-character separator (empty input gives
`[""]`, like Python). -/
def pySplit (s : String) (sep : Char) : List String :=
  (s.data.splitOn sep).map (fun l => (⟨l⟩ : String))

/-- The course-name repair of `create_chunks_from_course` (lines 112-119):
when the recorded name is missing or the known-bad TEQSA string, rebuild it
from the filename stem. -/
def fixCourseName (course_name : String) (filename : String) : String :=
  if course_name = "" ∨ course_name = "TEQSA Category: Australian University" then
    let filename_parts := pySplit (pathStem filename) '_'
    let name_parts := filename_parts.filter
      (fun p => p ≠ "None" && p ≠ "" && !matchesCourseCodeRe p)
    if name_parts ≠ [] then String.intercalate " " name_parts
    else course_name
  else course_name

/-- The fixed ordered field table of the chunker. -/
def chunkableFields : List (String × String) :=
  [("overview", "Overview"),
   ("admission_requirements", "Admission Requirements"),
   ("career_options", "Career Options"),
   ("course_structure", "Course Structure"),
   ("professional_recognition", "Professional Recognition"),
   ("inherent_requirements", "Inherent Requirements"),
   ("structure_notes", "Structure Notes"),
   ("notes", "Notes")]

/-- Look up one of the eight chunkable fields of a record by name. -/
def CourseRecord.getField (rec : CourseRecord) (field : String) : PyVal :=
  if field = "overview" then rec.overview
  else if field = "admission_requirements" then rec.admission_requirements
  else if field = "career_options" then rec.career_options
  else if field = "course_structure" then rec.course_structure
  else if field = "professional_recognition" then rec.professional_recognition
  else if field = "inherent_requirements" then rec.inherent_requirements
  else if field = "structure_notes" then rec.structure_notes
  else if field = "notes" then rec.notes
  else PyVal.none

/-- One chunk to be emitted: its `chunk_type`, `chunk_label` and text. -/
structure ChunkItem where
  ctype : String
  clabel : String
  ctext : String
deriving DecidableEq, Repr

/-- The per-field skip logic of the chunker loop (lines 145-159): skip falsy,
literal `"None"` and whitespace-only values, format, skip when the stripped
text is shorter than 50 characters, then prefix the label. -/
def fieldChunkItem (v : PyVal) (field label : String) : Option ChunkItem :=
  if !v.truthy || v = .str "None"
      || (match v with | .str s => pyStrip s = "" | _ => false) then
    Option.none
  else
    let text := format_field_value v
    if text = "" || (pyStrip text).length < 50 then Option.none
    else some ⟨field, label, label ++ ":\n" ++ text⟩

/-- The field chunks of a record, in table order (loop of lines 145-172,
without the ids, which are assigned by the shared running index). -/
def fieldItems (rec : CourseRecord) : List ChunkItem :=
  chunkableFields.filterMap (fun fl => fieldChunkItem (rec.getField fl.1) fl.1 fl.2)

/-- The aggregate learning-outcomes chunk (lines 174-196), when non-empty. -/
def learningOutcomesItem (rec : CourseRecord) : Option ChunkItem :=
  if rec.learning_outcomes = [] then Option.none
  else
    let otext := String.intercalate "\n"
      ((rec.learning_outcomes.filter (·.text ≠ "")).map
        (fun it => it.number ++ ". " ++ it.text))
    if otext = "" then Option.none
    else some ⟨"learning_outcomes", "Learning Outcomes", "Learning Outcomes:\n" ++ otext⟩

/-- The parts of the synthetic `course_info` summary chunk (lines 199-229). -/
def courseInfoParts (rec : CourseRecord) (course_name course_code : String) :
    List String :=
  (if course_name ≠ "" then ["Course Name: " ++ course_name] else [])
    ++ (if course_code ≠ "" then ["Course Code: " ++ course_code] else [])
    ++ (match rec.credit_points with
        | some s => if s ≠ "" then ["Credit Points: " ++ s] else []
        | Option.none => [])
    ++ (match rec.cricos_code with
        | some s => if s ≠ "" && s ≠ "None" then ["CRICOS Code: " ++ s] else []
        | Option.none => [])
    ++ (if rec.faculty ≠ [] then
          let faculty_str := String.intercalate ", " rec.faculty
          if faculty_str ≠ "" then ["Faculty: " ++ faculty_str] else []
        else [])
    ++ (match rec.study_level with
        | some s => if s ≠ "" then ["Study Level: " ++ s] else []
        | Option.none => [])
    ++ (match rec.duration_fulltime with
        | some s => if s ≠ "" then ["Duration (Full-time): " ++ s] else []
        | Option.none => [])
    ++ (match rec.duration_parttime with
        | some s => if s ≠ "" then ["Duration (Part-time): " ++ s] else []
        | Option.none => [])
    ++ (if rec.location ≠ [] then
          let location_str := String.intercalate ", " rec.location
          if location_str ≠ "" then ["Location: " ++ location_str] else []
        else [])
    ++ (if rec.awards ≠ [] then
          let awards_str := String.intercalate ", " rec.awards
          if awards_str ≠ "" then ["Awards: " ++ awards_str] else []
        else [])
    ++ (if rec.overview.truthy then ["\nOverview:\n" ++ rec.overview.pyStr] else [])

/-- The synthetic `course_info` summary chunk (lines 198-245). -/
def courseInfoItem (rec : CourseRecord) (course_name course_code : String) :
    Option ChunkItem :=
  if courseInfoParts rec course_name course_code ≠ [] then
    some ⟨"course_info", "Course Information",
      String.intercalate "\n" (courseInfoParts rec course_name course_code)⟩
  else Option.none

/-- The ordered chunk items of a record: field chunks, then the
learning-outcomes chunk, then the `course_info` chunk.  The source emits them
in exactly this order with one shared running `chunk_index` that increments
only on emission, so the ordinal of each emitted chunk is its position in
this list. -/
def chunkItems (rec : CourseRecord) (course_name course_code : String) : List ChunkItem :=
  fieldItems rec ++ (learningOutcomesItem rec).toList
    ++ (courseInfoItem rec course_name course_code).toList

/-- An emitted chunk: id, text and metadata. -/
structure ChunkMeta where
  course_code : String
  course_name : String
  chunk_type : String
  chunk_label : String
  source_url : String
  ingested_at : String
deriving DecidableEq, Repr

structure Chunk where
  id : String
  text : String
  meta : ChunkMeta
deriving DecidableEq, Repr

/-- `create_chunks_from_course` from `ingest_courses.py`.  `uuid5` is the
opaque UUIDv5 digest; `now` is the value of `datetime.utcnow().isoformat(...)`,
made explicit so that time-dependence is visible in the embedding. -/
def create_chunks_from_course (uuid5 : String → String) (rec : CourseRecord)
    (filename : String) (now : String) : List Chunk :=
  let course_code := get_course_code rec filename
  let course_name := fixCourseName (pyStrip (rec.course_name.getD "")) filename
  let source_url := rec.metadata_source_url.getD ""
  let unique_id := pathStem filename
  (chunkItems rec course_name course_code).enum.map (fun it =>
    { id := make_chunk_uuid uuid5 course_code it.2.ctype it.1 unique_id
      text := it.2.ctext
      meta := { course_code := course_code
                course_name := course_name
                chunk_type := it.2.ctype
                chunk_label := it.2.clabel
                source_url := source_url
                ingested_at := now } })

/-! ### A small regular-expression matcher

The two junk-filter patterns of `save_kb_files.py` are anchored (`^...$`, no
`re.MULTILINE`) and are applied with `.search` to text that has already been
stripped, so a successful search is exactly a full-string match.  We embed the
pattern bodies with a Brzozowski-derivative matcher. -/

/-- Regular expressions over characters, with character classes as predicates. -/
inductive RE where
  | emp
  | eps
  | cls (p : Char → Bool)
  | alt (r1 r2 : RE)
  | cat (r1 r2 : RE)
  | star (r : RE)

/-- Does the expression accept the empty string? -/
def RE.nullable : RE → Bool
  | .emp => false
  | .eps => true
  | .cls _ => false
  | .alt r1 r2 => r1.nullable || r2.nullable
  | .cat r1 r2 => r1.nullable && r2.nullable
  | .star _ => true

/-- Brzozowski derivative with respect to one character. -/
def RE.deriv : RE → Char → RE
  | .emp, _ => .emp
  | .eps, _ => .emp
  | .cls p, c => if p c then .eps else .emp
  | .alt r1 r2, c => .alt (r1.deriv c) (r2.deriv c)
  | .cat r1 r2, c =>
    if r1.nullable then .alt (.cat (r1.deriv c) r2) (r2.deriv c)
    else .cat (r1.deriv c) r2
  | .star r, c => .cat (r.deriv c) (.star r)

/-- Full-string matching by iterated derivatives. -/
def RE.matchList (r : RE) : List Char → Bool
  | [] => r.nullable
  | c :: cs => (r.deriv c).matchList cs

/-- Full-string match on a Lean string. -/
def RE.matches (r : RE) (s : String) : Bool := r.matchList s.data

/-- A case-insensitive literal character (`re.I`). -/
def ciChar (c : Char) : RE := .cls (fun d => d.toLower = c.toLower)

/-- A case-insensitive literal string. -/
def ciLit (s : String) : RE := s.data.foldr (fun c acc => .cat (ciChar c) acc) .eps

/-- `\s*` for the Python ASCII whitespace class. -/
def wsStar : RE := .star (.cls pyWs)

/-- `\w*` (`[A-Za-z0-9_]*`). -/
def wordStar : RE := .star (.cls (fun c => c.isAlphanum || c = '_'))

/-- `\d+`. -/
def digitsPlus : RE := .cat (.cls Char.isDigit) (.star (.cls Char.isDigit))

/-- `JUNK_INTENT_BLANK` from `save_kb_files.py`:
`^\s*this page has been left intentionally blank\.?\s*$` with `re.I`. -/
def blankRe : RE :=
  .cat wsStar (.cat (ciLit "this page has been left intentionally blank")
    (.cat (.alt .eps (.cls (· = '.'))) wsStar))

/-- `JUNK_PAGE_FOOTER` from `save_kb_files.py`:
`^\s*page\s*\w*\s*\d+\s*(of|/)\s*\w*\s*\d+\s*$` with `re.I`. -/
def footerRe : RE :=
  .cat wsStar (.cat (ciLit "page") (.cat wsStar (.cat wordStar (.cat wsStar
    (.cat digitsPlus (.cat wsStar (.cat (.alt (ciLit "of") (.cls (· = '/')))
      (.cat wsStar (.cat wordStar (.cat wsStar (.cat digitsPlus wsStar)))))))))))

/-! ### `src/rag/save_kb_files.py`: the junk filter -/

/-- The number of decimal-digit characters in a string
(`sum(ch.isdigit() for ch in t)`). -/
def digitCount (s : String) : Nat := (s.data.filter Char.isDigit).length

/-- `looks_junky` from `save_kb_files.py`.  The division test
`digits / max(1, len(t)) > 0.5` is expressed exactly over the integers as
`2 * digits > max 1 len`. -/
def looks_junky (text : String) : Bool :=
  let t := pyStrip text
  if t = "" then true
  else if t.length < 40 then true
  else if blankRe.matches t then true
  else if footerRe.matches t then true
  else if 2 * digitCount t > max 1 t.length then true
  else false

/-! ### `src/rag/save_kb_files.py`: the embedding index writer -/

/-- One parsed row of the input chunks JSONL: the id (possibly missing), the
chunk text, and the metadata mapping (values may be JSON `null`). -/
structure KbRow where
  id : Option String
  text : String
  meta : List (String × Option String)
deriving DecidableEq, Repr

/-- The `page_end` defaulting of `load_jsonl`: when `meta` lacks a `page_end`
key, append one holding `meta.get("page_start")`. -/
def ensurePageEnd (meta : List (String × Option String)) : List (String × Option String) :=
  if (meta.lookup "page_end").isSome then meta
  else meta ++ [("page_end", (meta.lookup "page_start").getD Option.none)]

/-- `load_jsonl` from `save_kb_files.py`, applied to already-parsed rows:
drop junky texts and default `page_end`. -/
def load_jsonl_rows (rows : List KbRow) : List KbRow :=
  (rows.filter (fun r => !looks_junky r.text)).map
    (fun r => { r with meta := ensurePageEnd r.meta })

/-- The manifest written next to the vectors. -/
structure KbManifest where
  n_points : Nat
  dim : Nat
  embed_model : String
deriving DecidableEq, Repr

/-- The three co-located artifacts written on success. -/
structure KbArtifacts where
  embeddings : List (List Float)
  payloads : List KbRow
  manifest : KbManifest
deriving Repr

/-- `main` of `save_kb_files.py`: filter, integrity-check ids, embed, check
row alignment, and either abort (`SystemExit`) or write the three artifacts.
`embed` stands for the opaque `SentenceTransformer.encode` batch call and
`embed_model_dir` for the `--embed_model_dir` argument. -/
def save_kb_main (embed : List String → List (List Float)) (embed_model_dir : String)
    (input_rows : List KbRow) : Except String KbArtifacts :=
  let rows := load_jsonl_rows input_rows
  if rows = [] then
    .error "No rows after filtering; check your chunks.jsonl or filters."
  else
    let ids : List (Option String) := rows.map (·.id)
    if ids.any (·.isNone) then
      .error "Some rows are missing \x27id\x27. Did ingest write UUIDs?"
    else if !(decide ids.Nodup) then
      .error "Duplicate ids detected in JSONL. UUIDv5 should be unique per chunk."
    else
      let texts := rows.map (·.text)
      let vecs := embed texts
      if vecs.length ≠ rows.length then
        .error "Embeddings rows != payload rows"
      else
        .ok { embeddings := vecs
              payloads := rows
              manifest := { n_points := vecs.length
                            dim := (vecs.headD []).length
                            embed_model := embed_model_dir } }

/-! ### `src/rag/upsert_to_qdrant_from_files.py`: the index upsert CLI -/

/-- A JSON id value: Qdrant payload ids in this repo are strings (UUIDs), but
the code also tolerates integer ids. -/
inductive PyId where
  | pstr (s : String)
  | pint (n : Int)
deriving DecidableEq, Repr

/-- Python truthiness of an id (`if not rid`). -/
def PyId.truthy : PyId → Bool
  | .pstr s => s != ""
  | .pint n => n != 0

/-- One line of `payloads.jsonl`: blank, or a row with an optional id, a text
and a metadata mapping. -/
inductive PayloadLine where
  | blank
  | row (id : Option PyId) (text : String) (meta : List (String × String))
deriving DecidableEq, Repr

/-- The payload stored with each point:
`r.get("meta", {}) | {"text": ..., "row_id": rid}`. -/
structure UpsertPayload where
  meta : List (String × String)
  text : String
  row_id : PyId
deriving DecidableEq, Repr

/-- The loop body of `load_payloads`: walk the enumerated lines, skip blanks
(which still consume a line index), abort on a falsy/missing id, and convert
string ids to the running line index.  Returns `(qdrant_id, payload)` pairs. -/
def collectPayloads : List PayloadLine → Nat → Except String (List (Int × UpsertPayload))
  | [], _ => .ok []
  | .blank :: rest, i => collectPayloads rest (i + 1)
  | .row id text meta :: rest, i =>
    match id with
    | Option.none => .error "Row missing \x27id\x27 in payloads.jsonl"
    | some rid =>
      if !rid.truthy then .error "Row missing \x27id\x27 in payloads.jsonl"
      else
        let qdrant_id : Int := match rid with
          | .pstr _ => (i : Int)
          | .pint n => n
        (collectPayloads rest (i + 1)).map
          (fun tl => (qdrant_id, ⟨meta, text, rid⟩) :: tl)

/-- `load_payloads` from `upsert_to_qdrant_from_files.py`. -/
def load_payloads (lines : List PayloadLine) :
    Except String (List Int × List UpsertPayload) :=
  match collectPayloads lines 0 with
  | .error e => .error e
  | .ok ps =>
    let ids := ps.map (·.1)
    if ids.Nodup then .ok (ids, ps.map (·.2))
    else .error "Duplicate ids found in payloads.jsonl"

/-- A point as sent to the collection by the upsert loop. -/
structure UpsertPoint where
  pid : Int
  vector : List Float
  payload : UpsertPayload
deriving Repr

/-- The `__main__` flow of `upsert_to_qdrant_from_files.py` up to the point
batches: load the payloads, check row alignment, and produce the points that
the batched `cli.upsert` calls would write. -/
def upsert_prepare (emb : List (List Float)) (lines : List PayloadLine) :
    Except String (List UpsertPoint) :=
  match load_payloads lines with
  | .error e => .error e
  | .ok (ids, payloads) =>
    if emb.length ≠ ids.length then
      .error "Emb rows != payload rows"
    else
      .ok ((ids.zip (emb.zip payloads)).map (fun x => ⟨x.1, x.2.1, x.2.2⟩))

/-! ### `src/rag/query_hybrid_rag.py`: the context assembler -/

/-- The payload of a retrieval hit, with the keys `build_course_context`
reads (`payload.get(key, "")` defaults live in the accessors below). -/
structure HitPayload where
  text : String := ""
  course_code : String := ""
  course_name : String := ""
  chunk_label : String := ""
  source_url : String := ""
deriving DecidableEq, Repr

/-- A retrieval hit; `payload` may be `None` (`hit.payload or {}`). -/
structure RetrievalHit where
  score : Int := 0
  payload : Option HitPayload := Option.none
deriving DecidableEq, Repr

/-- `hit.payload or {}`. -/
def RetrievalHit.payloadD (h : RetrievalHit) : HitPayload := h.payload.getD {}

/-- The formatted context block for one included hit: the citation header in
square brackets, then the chunk text (lines 82-100 of `query_hybrid_rag.py`). -/
def formatHitBlock (p : HitPayload) : String :=
  let cite_parts : List String :=
    (if p.course_code ≠ "" then ["Course Code: " ++ p.course_code] else [])
    ++ (if p.course_name ≠ "" then ["(" ++ p.course_name ++ ")"] else [])
    ++ (if p.chunk_label ≠ "" then ["- " ++ p.chunk_label] else [])
  let cite := String.intercalate " | " cite_parts
  let cite := if p.source_url ≠ "" then cite ++ "\nSource: " ++ p.source_url else cite
  "[" ++ cite ++ "]\n" ++ p.text

/-- The accumulation loop of `build_course_context`: a hit is appended when
`current_length + len(text) < max_context_length`; an over-budget hit is
skipped but the loop continues with the remaining hits. -/
def buildContextLoop (max_context_length : Nat) :
    List RetrievalHit → Nat → List String
  | [], _ => []
  | h :: rest, current_length =>
    let text := h.payloadD.text
    if current_length + text.length < max_context_length then
      formatHitBlock h.payloadD :: buildContextLoop max_context_length rest
        (current_length + text.length)
    else
      buildContextLoop max_context_length rest current_length

/-- `build_course_context` from `query_hybrid_rag.py`. -/
def build_course_context (hits : List RetrievalHit)
    (max_context_length : Nat := 4000) : String :=
  String.intercalate "\n\n" (buildContextLoop max_context_length hits 0)

/-! ### `src/rag/query_hybrid_rag.py`: answer generation -/

/-- The request `answer_with_ollama` posts to the generation service. -/
structure OllamaRequest where
  url : String
  model : String
  system_msg : String
  prompt : String
deriving DecidableEq, Repr

/-- The JSON body of a generation response; `Option` encodes a missing key. -/
structure OllamaMessage where
  content : Option String
deriving DecidableEq, Repr

structure OllamaBody where
  message : Option OllamaMessage
deriving DecidableEq, Repr

/-- The outcome of the HTTP POST: connection failure, wall-clock timeout, or a
response with a status code and a (possibly unparseable, hence `Option`)
JSON body. -/
inductive HttpOutcome where
  | connError (msg : String)
  | timeoutErr (msg : String)
  | response (status : Nat) (body : Option OllamaBody)
deriving DecidableEq, Repr

/-- The exception text rendered into the returned error string (abbreviated
renderings of the `requests` exception messages). -/
def httpExnText : HttpOutcome → String
  | .connError m => m
  | .timeoutErr m => m
  | .response status _ => decStr status ++ " Error for url"

/-- Build the request of `answer_with_ollama` (lines 112-128). -/
def mkOllamaRequest (query context : String) (host : String) (port : Nat)
    (model : String) (concise : Bool) : OllamaRequest :=
  let url := "http://" ++ host ++ ":" ++ decStr port ++ "/api/chat"
  if concise then
    { url := url, model := model
      system_msg := "You are a helpful assistant for UTS course information. Answer questions about courses using only the provided context. Be brief and direct. Cite sources as [Course Code: XXX]. If the information is not in the context, say you don\x27t know."
      prompt := "Question: " ++ query ++ "\n\nContext:\n" ++ context
        ++ "\n\nAnswer directly and briefly:" }
  else
    { url := url, model := model
      system_msg := "You are a helpful assistant for UTS course information. Answer questions about courses using only the provided context. Provide comprehensive answers. Cite sources as [Course Code: XXX]. If the information is not in the context, say you don\x27t know."
      prompt := "Question: " ++ query ++ "\n\nContext:\n" ++ context ++ "\n\nAnswer:" }

/-- `answer_with_ollama` from `query_hybrid_rag.py`.  `service` stands for the
network: it maps the posted request to an `HttpOutcome`.  Every failure mode
(connection error, timeout, `raise_for_status` on a ≥400 status, JSON decode
failure, missing `message`/`content` key) is caught by the `except` clause and
converted into an `"Error generating response: ..."` string. -/
def answer_with_ollama (service : OllamaRequest → HttpOutcome)
    (query context : String) (host : String := "127.0.0.1") (port : Nat := 11434)
    (model : String := "qwen2.5:7b") (concise : Bool := true) : String :=
  let req := mkOllamaRequest query context host port model concise
  match service req with
  | .connError m => "Error generating response: " ++ m
  | .timeoutErr m => "Error generating response: " ++ m
  | .response status body =>
    if 400 ≤ status then
      "Error generating response: " ++ httpExnText (.response status body)
    else
      match body with
      | Option.none =>
        "Error generating response: Expecting value: line 1 column 1 (char 0)"
      | some b =>
        match b.message with
        | Option.none => "Error generating response: \x27message\x27"
        | some m =>
          match m.content with
          | Option.none => "Error generating response: \x27content\x27"
          | some c => c

/-- A generation-service outcome that raises no exception inside
`answer_with_ollama`: a < 400 status whose body parses and holds
`message.content`. -/
def genSuccess : HttpOutcome → Bool
  | .response status (some ⟨some ⟨some _⟩⟩) => status < 400
  | _ => false

/-- The `message.content` field of a successful outcome. -/
def genContent : HttpOutcome → Option String
  | .response _ (some ⟨some ⟨some c⟩⟩) => some c
  | _ => Option.none

/-! ### Orchestration: primary pipeline, fallback and the chat endpoint -/

/-- `query_with_full_pipeline` from `query_with_preprocessing.py` (with
`generate=True`, as the chat endpoint calls it).  `retrieval` stands for the
`query_with_filtering` call, which performs network I/O and may raise; when it
returns no hits (`has_results` false) the pipeline short-circuits to the fixed
no-information message without calling generation. -/
def query_with_full_pipeline (retrieval : Except String (List RetrievalHit))
    (service : OllamaRequest → HttpOutcome) (query : String) (concise : Bool) :
    Except String String :=
  match retrieval with
  | .error e => .error e
  | .ok hits =>
    if hits = [] then .ok "No relevant course information found."
    else
      let context := build_course_context hits 4000
      .ok (answer_with_ollama service query context "127.0.0.1" 11434 "qwen2.5:7b" concise)

/-- `query_courses` from `query_hybrid_rag.py` (with `generate=True`), the
fallback path of the chat endpoint. -/
def query_courses (retrieval : Except String (List RetrievalHit))
    (service : OllamaRequest → HttpOutcome) (query : String) (concise : Bool) :
    Except String String :=
  match retrieval with
  | .error e => .error e
  | .ok hits =>
    if hits = [] then .ok "No relevant course information found."
    else
      let context := build_course_context hits 4000
      .ok (answer_with_ollama service query context "127.0.0.1" 11434 "qwen2.5:7b" concise)

/-- The observable outcome of one `/api/chatbot/chat/` request: the response
body, the success flag, an HTTP error status if an `HTTPException` escapes,
and how many times the fallback path was invoked. -/
structure ChatOutcome where
  response : String
  success : Bool
  httpError : Option Nat
  fallbackCalls : Nat
deriving DecidableEq, Repr

/-- The empty-response substitution of the chat endpoint (lines 296-297 of
`api_server.py`). -/
def substituteEmpty (s : String) : String :=
  if s = "" ∨ pyStrip s = "" then
    "I couldn\x27t generate a response. Please try rephrasing your question."
  else s

/-- The `chat` endpoint of `api_server.py` in its default
`use_preprocessing=True` mode, given the outcome of the primary
(`query_with_full_pipeline`) call and of the fallback (`query_courses`) call.
The fallback outcome is consulted (counted as one invocation) only when the
primary raises; any error raised by the fallback itself is absorbed by the
outer handler into a fixed apology with `success=False`. -/
def chat_endpoint (message : String)
    (primary : Except String String) (fallback : Except String String) : ChatOutcome :=
  let query := pyStrip message
  if query = "" then
    { response := "", success := false, httpError := some 400, fallbackCalls := 0 }
  else
    match primary with
    | .ok s =>
      { response := substituteEmpty s, success := true, httpError := Option.none
        fallbackCalls := 0 }
    | .error _ =>
      match fallback with
      | .ok s =>
        { response := substituteEmpty s, success := true, httpError := Option.none
          fallbackCalls := 1 }
      | .error _ =>
        { response := "Sorry, there was an error processing your request. Please try again."
          success := false, httpError := Option.none, fallbackCalls := 1 }

/-! ### Claim-side models (definitions written from the specification text,
for comparison against the source-derived definitions above) -/

/-- Modelled from the claim (C4): the course-code pattern of one letter plus
five digits, case-insensitive (full match). -/
def claimLetterCode (s : String) : Bool :=
  match s.data with
  | c :: ds => c.isAlpha && ds.length = 5 && ds.all Char.isDigit
  | [] => false

/-- Modelled from the claim (C4): leftmost occurrence of the letter-plus-five-
digits pattern in a text, normalised to uppercase. -/
def claimSearchLetterCode : List Char → Option String
  | [] => Option.none
  | c :: rest =>
    if c.isAlpha && (rest.take 5).length = 5 && (rest.take 5).all Char.isDigit then
      some ⟨c.toUpper :: rest.take 5⟩
    else claimSearchLetterCode rest

/-- Modelled from the claim (C4) as written: priority resolution of the
course code — record value matching the one-letter pattern, else URL pattern
match, else filename pattern match, else raw record value uppercased, else
`UNKNOWN`. -/
def claim_resolve_course_code (rec : CourseRecord) (filename : String) : String :=
  let code := pyStrip (rec.course_code.getD "")
  if claimLetterCode code then pyUpper code
  else
    match claimSearchLetterCode (rec.metadata_source_url.getD "").data with
    | some c => c
    | Option.none =>
      match claimSearchLetterCode filename.data with
      | some c => c
      | Option.none =>
        match rec.course_code with
        | some v => pyUpper (pyStrip v)
        | Option.none => "UNKNOWN"

/-- Spec-style full match of the pattern `[cC]` plus five digits, used by the
amended form of C4 (independent formulation via length and head). -/
def specCFullCode (s : String) : Bool :=
  s.length = 6 && ((s.data.headD ' ') == 'C' || (s.data.headD ' ') == 'c')
    && s.data.tail.all Char.isDigit

/-- Spec-style match of `/courses/[cC]\d{5}` at the head of a suffix,
capturing the uppercased code. -/
def specCoursesAt (suf : List Char) : Option String :=
  if "/courses/".data.isPrefixOf suf then
    match suf.drop 9 with
    | c :: ds =>
      if (c == 'c' || c == 'C') && (ds.take 5).all Char.isDigit && 5 ≤ ds.length then
        some ⟨'C' :: ds.take 5⟩
      else Option.none
    | [] => Option.none
  else Option.none

/-- Spec-style leftmost search for `/courses/[cC]\d{5}`, via suffixes. -/
def specSearchCourses (l : List Char) : Option String :=
  l.tails.findSome? specCoursesAt

/-- The amended C4 resolution policy: like the claim, but the course-code
pattern is the letter `C` (not any letter) plus five digits, the filename step
applies the *URL* pattern `/courses/[cC]\d{5}` to the filename, and a
present-but-malformed record value is returned stripped and uppercased
(`UNKNOWN` only when the key is absent). -/
def amended_resolve_course_code (rec : CourseRecord) (filename : String) : String :=
  let code := pyStrip (rec.course_code.getD "")
  if code ≠ "" ∧ specCFullCode code then pyUpper code
  else
    match specSearchCourses (rec.metadata_source_url.getD "").data with
    | some c => c
    | Option.none =>
      match specSearchCourses filename.data with
      | some c => c
      | Option.none =>
        match rec.course_code with
        | some v => pyUpper (pyStrip v)
        | Option.none => "UNKNOWN"

/-- Modelled from the claim (C8) as written: greedy context assembly that
*stops* at the first hit whose text would exceed the budget. -/
def cutoffLoop (maxLen : Nat) : List RetrievalHit → Nat → List String
  | [], _ => []
  | h :: rest, cur =>
    let t := h.payloadD.text
    if cur + t.length < maxLen then
      formatHitBlock h.payloadD :: cutoffLoop maxLen rest (cur + t.length)
    else []

/-- Modelled from the claim (C8) as written: prefix-only context. -/
def claim_context_cutoff (hits : List RetrievalHit) (maxLen : Nat) : String :=
  String.intercalate "\n\n" (cutoffLoop maxLen hits 0)

/-- The hits actually included by `build_course_context`: the greedy scan
that skips an over-budget hit and keeps scanning (amended C8). -/
def selectHits (maxLen : Nat) : List RetrievalHit → Nat → List RetrievalHit
  | [], _ => []
  | h :: rest, cur =>
    let t := h.payloadD.text
    if cur + t.length < maxLen then h :: selectHits maxLen rest (cur + t.length)
    else selectHits maxLen rest cur

/-- A payload line whose row (if any) carries a non-empty string id. -/
def lineStrOk : PayloadLine → Bool
  | .blank => true
  | .row id _ _ =>
    match id with
    | some (.pstr s) => s != ""
    | _ => false

/-- The original id recorded on a row line. -/
def rowIdOf : PayloadLine → Option PyId
  | .row (some rid) _ _ => some rid
  | _ => Option.none

/-! ### Concrete instances used by counterexamples and witnesses -/

/-- Two payload rows carrying the *same string id* (C7). -/
def c7Lines : List PayloadLine :=
  [.row (some (.pstr "3e6d2e9a")) "first duplicate row" [],
   .row (some (.pstr "3e6d2e9a")) "second duplicate row" []]

/-- Three hits whose text lengths are 6, 6 and 2 (C8). -/
def c8Hits : List RetrievalHit :=
  [{ payload := some { text := "aaaaaa" } },
   { payload := some { text := "bbbbbb" } },
   { payload := some { text := "cc" } }]

/-- A single retrieval hit with some course text (C9). -/
def c9Hit : RetrievalHit :=
  { payload := some { text := "Overview:\nThe course covers sport and exercise science." } }

/-- A generation service that always times out (C9). -/
def c9Timeout : OllamaRequest → HttpOutcome :=
  fun _ => .timeoutErr
    "HTTPConnectionPool(host=\x27127.0.0.1\x27, port=11434): Read timed out. (read timeout=180)"

/-- A record whose overview is exactly 50 characters (C3). -/
def w3Rec50 : CourseRecord := { overview := .str ⟨List.replicate 50 'x'⟩ }

/-- A record whose overview is exactly 49 characters (C3). -/
def w3Rec49 : CourseRecord := { overview := .str ⟨List.replicate 49 'x'⟩ }

/-! ## Theorems -/

theorem length_pos_of_ne_empty (s : String) (hs : s ≠ "") : 1 ≤ s.length := by
  cases s with
  | mk data =>
    cases data with
    | nil => exact absurd rfl hs
    | cons c cs => simp [String.length]

/-- C5: for every input string, the junk filter returns `true` exactly when
the stripped text is empty, or shorter than 40 characters, or matches the
intentionally-blank boilerplate pattern, or matches the page-footer pattern,
or its digit characters exceed 50% of its length; otherwise `false`. -/
theorem looks_junky_iff (text : String) :
    looks_junky text = true ↔
      pyStrip text = "" ∨ (pyStrip text).length < 40
        ∨ blankRe.matches (pyStrip text) = true
        ∨ footerRe.matches (pyStrip text) = true
        ∨ 2 * digitCount (pyStrip text) > (pyStrip text).length := by
  unfold looks_junky
  simp only []
  split_ifs with h1 h2 h3 h4 h5
  · simp [h1]
  · simp [h2]
  · simp [h3]
  · simp [h4]
  · have := length_pos_of_ne_empty _ h1
    simp only [true_iff]
    right; right; right; right
    omega
  · have := length_pos_of_ne_empty _ h1
    simp only [false_iff]
    push_neg
    refine ⟨h1, by omega, by simpa using h3, by simpa using h4, by omega⟩

/-- The items of a record's chunk list, convenient shorthand. -/
theorem create_chunks_getElem (uuid5 : String → String) (rec : CourseRecord)
    (filename now : String) (i : Nat) :
    (create_chunks_from_course uuid5 rec filename now)[i]?
      = ((chunkItems rec (fixCourseName (pyStrip (rec.course_name.getD "")) filename)
          (get_course_code rec filename))[i]?).map
          (fun it =>
            { id := make_chunk_uuid uuid5 (get_course_code rec filename) it.ctype i
                (pathStem filename)
              text := it.ctext
              meta := { course_code := get_course_code rec filename
                        course_name := fixCourseName (pyStrip (rec.course_name.getD ""))
                          filename
                        chunk_type := it.ctype
                        chunk_label := it.clabel
                        source_url := rec.metadata_source_url.getD ""
                        ingested_at := now } }) := by
  simp only [create_chunks_from_course]
  rw [List.getElem?_map, List.getElem?_enum, Option.map_map]
  rfl

/-- C1: for a fixed course record and uniqueness token, chunking is
deterministic — the ordered id sequence, the chunk texts and all metadata
other than `ingested_at` are independent of the ingestion time, and each
emitted chunk's id is exactly the uuid of the composite key built from the
resolved course code, the chunk type, the running ordinal and the filename
stem. -/
theorem create_chunks_deterministic (uuid5 : String → String) (rec : CourseRecord)
    (filename t1 t2 : String) :
    ((create_chunks_from_course uuid5 rec filename t1).map (·.id)
      = (create_chunks_from_course uuid5 rec filename t2).map (·.id))
    ∧ ((create_chunks_from_course uuid5 rec filename t1).map (·.text)
      = (create_chunks_from_course uuid5 rec filename t2).map (·.text))
    ∧ ((create_chunks_from_course uuid5 rec filename t1).map
        (fun c => (c.meta.course_code, c.meta.course_name, c.meta.chunk_type,
          c.meta.chunk_label, c.meta.source_url))
      = (create_chunks_from_course uuid5 rec filename t2).map
        (fun c => (c.meta.course_code, c.meta.course_name, c.meta.chunk_type,
          c.meta.chunk_label, c.meta.source_url)))
    ∧ (∀ i c, (create_chunks_from_course uuid5 rec filename t1)[i]? = some c →
        c.id = make_chunk_uuid uuid5 (get_course_code rec filename) c.meta.chunk_type i
          (pathStem filename)) := by
  refine ⟨?_, ?_, ?_, ?_⟩
  · simp only [create_chunks_from_course, List.map_map]
    congr 1
  · simp only [create_chunks_from_course, List.map_map]
    congr 1
  · simp only [create_chunks_from_course, List.map_map]
    congr 1
  · intro i c hc
    rw [create_chunks_getElem] at hc
    cases hit : (chunkItems rec
        (fixCourseName (pyStrip (rec.course_name.getD "")) filename)
        (get_course_code rec filename))[i]? with
    | none => rw [hit] at hc; simp at hc
    | some it =>
      rw [hit] at hc
      simp only [Option.map_some'] at hc
      cases hc
      rfl

/-- C1 witness: a concrete record and filename for which the fourth clause is
discharged at ordinal 0. -/
theorem create_chunks_deterministic_witness :
    ∃ c, (create_chunks_from_course id { course_code := some "C10302" }
        "a_C10302.json" "2025-11-10T00:00:00Z")[0]? = some c
      ∧ c.id = make_chunk_uuid id
          (get_course_code { course_code := some "C10302" } "a_C10302.json")
          c.meta.chunk_type 0 (pathStem "a_C10302.json") := by
  refine ⟨_, rfl, ?_⟩
  exact (create_chunks_deterministic id { course_code := some "C10302" }
    "a_C10302.json" "2025-11-10T00:00:00Z" "2025-11-10T00:00:00Z").2.2.2 0 _ rfl

/-- C10: the answer-generation step converts every generation-service failure
(connection error, timeout, non-2xx status, unparseable body, missing
`message`/`content` key) into a returned string beginning
`"Error generating response: "`, and returns the service's `message.content`
verbatim on success; it never propagates an exception. -/
theorem answer_with_ollama_error_string (service : OllamaRequest → HttpOutcome)
    (query context host : String) (port : Nat) (model : String) (concise : Bool) :
    (genSuccess (service (mkOllamaRequest query context host port model concise)) = false →
      ∃ m, answer_with_ollama service query context host port model concise
        = "Error generating response: " ++ m)
    ∧ (genSuccess (service (mkOllamaRequest query context host port model concise)) = true →
      ∃ c, genContent (service (mkOllamaRequest query context host port model concise)) = some c
        ∧ answer_with_ollama service query context host port model concise = c) := by
  cases hsv : service (mkOllamaRequest query context host port model concise) with
  | connError m =>
    exact ⟨fun _ => ⟨m, by simp [answer_with_ollama, hsv]⟩,
      fun h => by simp [genSuccess, hsv] at h⟩
  | timeoutErr m =>
    exact ⟨fun _ => ⟨m, by simp [answer_with_ollama, hsv]⟩,
      fun h => by simp [genSuccess, hsv] at h⟩
  | response status body =>
    by_cases hst : 400 ≤ status
    · constructor
      · exact fun _ => ⟨httpExnText (.response status body),
          by simp [answer_with_ollama, hsv, hst]⟩
      · intro h
        rcases body with _ | ⟨_ | ⟨_ | c⟩⟩ <;> simp [genSuccess, hsv] at h
        omega
    · rcases body with _ | ⟨_ | ⟨_ | c⟩⟩
      · exact ⟨fun _ => ⟨"Expecting value: line 1 column 1 (char 0)",
          by simp [answer_with_ollama, hsv, hst]⟩,
          fun h => by simp [genSuccess, hsv] at h⟩
      · exact ⟨fun _ => ⟨"\x27message\x27", by simp [answer_with_ollama, hsv, hst]⟩,
          fun h => by simp [genSuccess, hsv] at h⟩
      · exact ⟨fun _ => ⟨"\x27content\x27", by simp [answer_with_ollama, hsv, hst]⟩,
          fun h => by simp [genSuccess, hsv] at h⟩
      · constructor
        · intro h
          simp [genSuccess, hsv] at h
          omega
        · exact fun _ => ⟨c, by simp [genContent, hsv],
            by simp [answer_with_ollama, hsv, hst]⟩

/-- C10 witness: a connection failure at a concrete request yields the error
string. -/
theorem answer_with_ollama_error_string_witness :
    ∃ m, answer_with_ollama (fun _ => .connError "connection refused")
        "what is C10302" "ctx" "127.0.0.1" 11434 "qwen2.5:7b" true
      = "Error generating response: " ++ m := by
  exact (answer_with_ollama_error_string (fun _ => .connError "connection refused")
    "what is C10302" "ctx" "127.0.0.1" 11434 "qwen2.5:7b" true).1 rfl

/-- C9 counterexample: a generation-service timeout inside the primary path
does *not* trigger the fallback — `answer_with_ollama` swallows it and the
primary path returns the error string as a normal answer, so the fallback is
invoked zero times, not once. -/
theorem chat_timeout_no_fallback :
    (chat_endpoint "what is C10302"
        (query_with_full_pipeline (.ok [c9Hit]) c9Timeout "what is C10302" true)
        (.ok "fallback answer")).fallbackCalls = 0
    ∧ (chat_endpoint "what is C10302"
        (query_with_full_pipeline (.ok [c9Hit]) c9Timeout "what is C10302" true)
        (.ok "fallback answer")).response
      = "Error generating response: HTTPConnectionPool(host=\x27127.0.0.1\x27, port=11434): Read timed out. (read timeout=180)" := by
  constructor <;> rfl

/-- C9 amended: an exception *raised* out of the primary path causes exactly
one fallback invocation whose result is returned without raising; but a
generation-service timeout is caught inside the generation step, converted to
an `"Error generating response: ..."` answer, and never reaches the
orchestrator as a failure. -/
theorem chat_fallback_amended :
    (∀ message e fb, pyStrip message ≠ "" →
      (chat_endpoint message (.error e) fb).fallbackCalls = 1
      ∧ (chat_endpoint message (.error e) fb).httpError = Option.none
      ∧ (∀ s, fb = .ok s →
          (chat_endpoint message (.error e) fb).response = substituteEmpty s))
    ∧ (∀ (hits : List RetrievalHit) query concise m, hits ≠ [] →
        query_with_full_pipeline (.ok hits) (fun _ => .timeoutErr m) query concise
          = .ok ("Error generating response: " ++ m)) := by
  constructor
  · intro message e fb hmsg
    cases fb with
    | ok s =>
      refine ⟨?_, ?_, ?_⟩
      · simp [chat_endpoint, hmsg]
      · simp [chat_endpoint, hmsg]
      · intro s' hs'
        cases hs'
        simp [chat_endpoint, hmsg]
    | error e2 =>
      exact ⟨by simp [chat_endpoint, hmsg], by simp [chat_endpoint, hmsg],
        fun s hs => by cases hs⟩
  · intro hits query concise m hne
    simp [query_with_full_pipeline, hne, answer_with_ollama]

/-- C9 amended witness: a concrete primary failure falls back once; a concrete
timeout is absorbed into the primary answer. -/
theorem chat_fallback_amended_witness :
    (chat_endpoint "hello" (.error "retrieval down") (.ok "fallback answer")).fallbackCalls = 1
    ∧ query_with_full_pipeline (.ok [c9Hit]) (fun _ => .timeoutErr "timed out") "q" true
      = .ok ("Error generating response: " ++ "timed out") := by
  exact ⟨(chat_fallback_amended.1 "hello" "retrieval down" (.ok "fallback answer")
      (by decide)).1,
    chat_fallback_amended.2 [c9Hit] "q" true "timed out" (by decide)⟩

/-- C8 counterexample: with hit texts of lengths 6, 6 and 2 and a budget of
10, the assembler skips the over-budget second hit but still includes the
third, so its output differs from the claimed stop-at-cutoff assembly. -/
theorem build_context_not_cutoff :
    build_course_context c8Hits 10 ≠ claim_context_cutoff c8Hits 10 := by decide

theorem buildContextLoop_eq_selectHits (maxLen : Nat) (hits : List RetrievalHit) :
    ∀ cur, buildContextLoop maxLen hits cur
      = (selectHits maxLen hits cur).map (fun h => formatHitBlock h.payloadD) := by
  induction hits with
  | nil => intro cur; rfl
  | cons h rest ih =>
    intro cur
    by_cases hcond : cur + h.payloadD.text.length < maxLen
    · simp [buildContextLoop, selectHits, hcond, ih]
    · simp [buildContextLoop, selectHits, hcond, ih]

theorem selectHits_sublist (maxLen : Nat) (hits : List RetrievalHit) :
    ∀ cur, (selectHits maxLen hits cur).Sublist hits := by
  induction hits with
  | nil => intro cur; simp [selectHits]
  | cons h rest ih =>
    intro cur
    by_cases hcond : cur + h.payloadD.text.length < maxLen
    · simp only [selectHits, hcond, if_true]
      exact List.Sublist.cons₂ h (ih _)
    · simp only [selectHits, hcond, if_false]
      exact List.Sublist.cons h (ih _)

/-- C8 amended: the assembled context is exactly the blocks of the hits
selected by the greedy scan (include a hit when the raw lengths already
included plus its own raw length are strictly below the budget, skip it
otherwise and *keep scanning*), joined in ranked order; the included hits are
an order-preserving subsequence of the hit list, but not necessarily a
prefix. -/
theorem build_context_amended (hits : List RetrievalHit) (maxLen : Nat) :
    build_course_context hits maxLen
      = String.intercalate "\n\n"
          ((selectHits maxLen hits 0).map (fun h => formatHitBlock h.payloadD))
    ∧ (selectHits maxLen hits 0).Sublist hits := by
  exact ⟨congrArg _ (buildContextLoop_eq_selectHits maxLen hits 0),
    selectHits_sublist maxLen hits 0⟩

/-- C6: the index writer aborts, producing no artifacts, exactly when the
filtered batch is empty, a surviving row lacks an id, two surviving rows share
an id, or the embedding row count differs from the payload row count; when
none of these hold it writes the vectors, the payloads row-aligned in input
order, and a manifest with the point count, vector dimension and model
identity. -/
theorem save_kb_main_spec (embed : List String → List (List Float)) (dir : String)
    (input_rows : List KbRow) :
    ((∃ e, save_kb_main embed dir input_rows = .error e) ↔
      (load_jsonl_rows input_rows = []
        ∨ (∃ r ∈ load_jsonl_rows input_rows, r.id = Option.none)
        ∨ ¬ ((load_jsonl_rows input_rows).map (·.id)).Nodup
        ∨ (embed ((load_jsonl_rows input_rows).map (·.text))).length
            ≠ (load_jsonl_rows input_rows).length))
    ∧ (∀ a, save_kb_main embed dir input_rows = .ok a →
        a.embeddings = embed ((load_jsonl_rows input_rows).map (·.text))
        ∧ a.payloads = load_jsonl_rows input_rows
        ∧ a.manifest.n_points
            = (embed ((load_jsonl_rows input_rows).map (·.text))).length
        ∧ a.manifest.dim
            = ((embed ((load_jsonl_rows input_rows).map (·.text))).headD []).length
        ∧ a.manifest.embed_model = dir) := by
  simp only [save_kb_main]
  split_ifs with h1 h2 h3 h4
  · exact ⟨⟨fun _ => Or.inl h1, fun _ => ⟨_, rfl⟩⟩, fun a ha => by cases ha⟩
  · constructor
    · refine ⟨fun _ => Or.inr (Or.inl ?_), fun _ => ⟨_, rfl⟩⟩
      obtain ⟨x, hx, hxn⟩ := List.any_eq_true.mp h2
      obtain ⟨r, hr, hrx⟩ := List.mem_map.mp hx
      exact ⟨r, hr, by rw [hrx]; exact Option.isNone_iff_eq_none.mp hxn⟩
    · exact fun a ha => by cases ha
  · constructor
    · refine ⟨fun _ => Or.inr (Or.inr (Or.inl ?_)), fun _ => ⟨_, rfl⟩⟩
      simpa using h3
    · exact fun a ha => by cases ha
  · exact ⟨⟨fun _ => Or.inr (Or.inr (Or.inr h4)), fun _ => ⟨_, rfl⟩⟩,
      fun a ha => by cases ha⟩
  · constructor
    · constructor
      · rintro ⟨e, he⟩
        cases he
      · rintro (h | h | h | h)
        · exact absurd h h1
        · obtain ⟨r, hr, hrid⟩ := h
          have h2x : ∀ x ∈ load_jsonl_rows input_rows, ¬x.id = Option.none := by
            simpa using h2
          exact absurd hrid (h2x r hr)
        · exact absurd (by simpa using h3) h
        · exact absurd h h4
    · intro a ha
      cases ha
      exact ⟨rfl, rfl, rfl, rfl, rfl⟩

/-- C6 witness: a one-row batch succeeds with aligned artifacts; an empty
batch aborts. -/
theorem save_kb_main_spec_witness :
    (∃ a, save_kb_main (fun ts => ts.map (fun _ => ([] : List Float)))
        "qwen3-embedding-0.6b" [⟨some "u1", ⟨List.replicate 40 'a'⟩, []⟩] = .ok a
      ∧ a.payloads = load_jsonl_rows [⟨some "u1", ⟨List.replicate 40 'a'⟩, []⟩])
    ∧ (∃ e, save_kb_main (fun ts => ts.map (fun _ => ([] : List Float)))
        "qwen3-embedding-0.6b" ([] : List KbRow) = .error e) := by
  constructor
  · exact ⟨_, rfl, ((save_kb_main_spec (fun ts => ts.map (fun _ => ([] : List Float)))
      "qwen3-embedding-0.6b" [⟨some "u1", ⟨List.replicate 40 'a'⟩, []⟩]).2 _ rfl).2.1⟩
  · exact (save_kb_main_spec (fun ts => ts.map (fun _ => ([] : List Float)))
      "qwen3-embedding-0.6b" ([] : List KbRow)).1.mpr (Or.inl rfl)

/-- C7 counterexample: a payloads file whose two rows carry the *same string
id* is accepted — string ids are replaced by their line indices before the
duplicate check, so the upsert does not abort and produces two points. -/
theorem upsert_dup_string_ids_accepted :
    upsert_prepare [[], []] c7Lines
      = .ok [⟨0, [], ⟨[], "first duplicate row", .pstr "3e6d2e9a"⟩⟩,
             ⟨1, [], ⟨[], "second duplicate row", .pstr "3e6d2e9a"⟩⟩] := by
  rfl

theorem collectPayloads_all_str (lines : List PayloadLine) :
    ∀ i, lines.all lineStrOk = true →
      ∃ ps, collectPayloads lines i = .ok ps
        ∧ (∀ q ∈ ps.map (·.1), (i : Int) ≤ q)
        ∧ (ps.map (·.1)).Pairwise (· < ·)
        ∧ ps.map (·.2.row_id) = lines.filterMap rowIdOf := by
  induction lines with
  | nil => exact fun i _ => ⟨[], rfl, by simp, by simp, by simp⟩
  | cons l rest ih =>
    intro i hall
    simp only [List.all_cons, Bool.and_eq_true] at hall
    obtain ⟨hl, hrest⟩ := hall
    cases l with
    | blank =>
      obtain ⟨ps, hps, hbd, hpw, hrow⟩ := ih (i + 1) hrest
      refine ⟨ps, by simpa [collectPayloads] using hps, ?_, hpw, ?_⟩
      · intro q hq
        have := hbd q hq
        push_cast at this ⊢
        omega
      · simpa [rowIdOf] using hrow
    | row id text meta =>
      cases id with
      | none => simp [lineStrOk] at hl
      | some rid =>
        cases rid with
        | pint n => simp [lineStrOk] at hl
        | pstr s =>
          have hs : (s != "") = true := by simpa [lineStrOk] using hl
          obtain ⟨ps, hps, hbd, hpw, hrow⟩ := ih (i + 1) hrest
          refine ⟨((i : Int), ⟨meta, text, .pstr s⟩) :: ps, ?_, ?_, ?_, ?_⟩
          · simp [collectPayloads, PyId.truthy, hs, hps, Except.map]
          · intro q hq
            rcases List.mem_cons.mp hq with hq | hq
            · simp [hq]
            · have := hbd q hq
              push_cast at this ⊢
              omega
          · refine List.Pairwise.cons ?_ hpw
            intro q hq
            have := hbd q hq
            push_cast at this ⊢
            omega
          · simpa [rowIdOf] using hrow

/-- C7 amended: the upsert CLI fails when the embedding row count differs from
the payload row count, and when ids are duplicated *after* the
string-to-line-index conversion (so only duplicate integer ids are detected);
duplicate string ids are never detected — every row whose id is a non-empty
string is accepted, its point id is the distinct 0-based line index and the
original string id is preserved in the payload as `row_id`. -/
theorem upsert_amended :
    (∀ (emb : List (List Float)) lines ids payloads,
      load_payloads lines = .ok (ids, payloads) → emb.length ≠ ids.length →
      upsert_prepare emb lines = .error "Emb rows != payload rows")
    ∧ (∀ lines ps, collectPayloads lines 0 = .ok ps → ¬ (ps.map (·.1)).Nodup →
        load_payloads lines = .error "Duplicate ids found in payloads.jsonl")
    ∧ (∀ lines, lines.all lineStrOk = true →
        ∃ ids payloads, load_payloads lines = .ok (ids, payloads)
          ∧ ids.Nodup
          ∧ payloads.map (·.row_id) = lines.filterMap rowIdOf) := by
  refine ⟨?_, ?_, ?_⟩
  · intro emb lines ids payloads hload hne
    simp [upsert_prepare, hload, hne]
  · intro lines ps hcol hdup
    simp [load_payloads, hcol, hdup]
  · intro lines hall
    obtain ⟨ps, hps, _, hpw, hrow⟩ := collectPayloads_all_str lines 0 hall
    have hnd : (ps.map (·.1)).Nodup := hpw.imp (fun h => ne_of_lt h)
    refine ⟨ps.map (·.1), ps.map (·.2), ?_, hnd, ?_⟩
    · simp [load_payloads, hps, hnd]
    · rw [List.map_map]
      exact hrow

/-- C7 amended witness: the duplicate-string-id file is loaded with line-index
ids 0 and 1 and preserved `row_id`s; a row-count mismatch aborts; duplicate
integer ids abort. -/
theorem upsert_amended_witness :
    (∃ ids payloads, load_payloads c7Lines = .ok (ids, payloads)
      ∧ ids.Nodup
      ∧ payloads.map (·.row_id) = c7Lines.filterMap rowIdOf)
    ∧ upsert_prepare [] c7Lines = .error "Emb rows != payload rows"
    ∧ load_payloads
        [.row (some (.pint 7)) "first" [], .row (some (.pint 7)) "second" []]
      = .error "Duplicate ids found in payloads.jsonl" := by
  refine ⟨upsert_amended.2.2 c7Lines (by decide), ?_, ?_⟩
  · exact upsert_amended.1 [] c7Lines [0, 1]
      [⟨[], "first duplicate row", .pstr "3e6d2e9a"⟩,
       ⟨[], "second duplicate row", .pstr "3e6d2e9a"⟩] rfl (by decide)
  · exact upsert_amended.2.1
      [.row (some (.pint 7)) "first" [], .row (some (.pint 7)) "second" []]
      [(7, ⟨[], "first", .pint 7⟩), (7, ⟨[], "second", .pint 7⟩)] rfl (by decide)

/-- C4 counterexample: for a record with no `course_code` and no source URL
and the filename `C10302_Bachelor.json`, the claimed policy resolves `C10302`
from the filename, but the code applies the URL pattern
`/courses/[cC]\d{5}` to the filename (there is an unused
`extract_course_code_from_filename` helper), so it falls through to
`UNKNOWN`. -/
theorem course_code_not_claim_resolution :
    get_course_code ({} : CourseRecord) "C10302_Bachelor.json" = "UNKNOWN"
    ∧ claim_resolve_course_code ({} : CourseRecord) "C10302_Bachelor.json" = "C10302"
    ∧ get_course_code ({} : CourseRecord) "C10302_Bachelor.json"
        ≠ claim_resolve_course_code ({} : CourseRecord) "C10302_Bachelor.json" := by
  refine ⟨by decide, by decide, by decide⟩

theorem specCFullCode_eq (s : String) : specCFullCode s = matchesCourseCodeRe s := by
  cases s with
  | mk data =>
    cases data with
    | nil => rfl
    | cons c ds =>
      rw [Bool.eq_iff_iff]
      simp [specCFullCode, matchesCourseCodeRe, String.length]
      exact fun _ => and_comm

theorem specCoursesAt_eq (l : List Char) : specCoursesAt l = coursesCodeAt l := by
  by_cases hpre : "/courses/".data <+: l
  · obtain ⟨rest, hrest⟩ := hpre
    have hdp : l.dropPrefix? "/courses/".data = some rest :=
      List.dropPrefix?_eq_some_iff.mpr ⟨"/courses/".data, hrest.symm, by simp⟩
    have hdrop : l.drop 9 = rest := by
      rw [← hrest]
      simp
    rw [specCoursesAt, coursesCodeAt, hdp]
    rw [if_pos (List.isPrefixOf_iff_prefix.mpr ⟨rest, hrest⟩), hdrop]
    cases rest with
    | nil => rfl
    | cons c ds =>
      by_cases h3 : 5 ≤ ds.length
      · have h3x : (ds.take 5).length = 5 := by
          simp [List.length_take]
          omega
        by_cases h1 : c = 'c'
        · simp [h1, h3, h3x]
        · by_cases h2 : c = 'C'
          · simp [h1, h2, h3, h3x]
          · simp [h1, h2, h3, h3x]
      · have h3x : ¬(ds.take 5).length = 5 := by
          simp [List.length_take]
          omega
        simp [h3, h3x]
  · have hdp : l.dropPrefix? "/courses/".data = Option.none := by
      cases hdp : l.dropPrefix? "/courses/".data with
      | none => rfl
      | some s =>
        obtain ⟨p', hl, hpp⟩ := List.dropPrefix?_eq_some_iff.mp hdp
        have hpe : p' = "/courses/".data := beq_iff_eq.mp hpp
        exact absurd ⟨s, by rw [← hpe]; exact hl.symm⟩ hpre
    rw [specCoursesAt, coursesCodeAt, hdp,
      if_neg (fun h => hpre (List.isPrefixOf_iff_prefix.mp h))]

theorem specSearchCourses_eq (l : List Char) : specSearchCourses l = searchCoursesCode l := by
  induction l with
  | nil => rfl
  | cons c rest ih =>
    rw [specSearchCourses, List.tails_cons, List.findSome?_cons]
    rw [searchCoursesCode, specCoursesAt_eq]
    cases coursesCodeAt (c :: rest) with
    | none => exact ih
    | some code => rfl

theorem extract_url_eq_specSearch (url : String) :
    extract_course_code_from_url url = specSearchCourses url.data := by
  by_cases hu : url = ""
  · subst hu
    rfl
  · rw [extract_course_code_from_url, if_neg hu, specSearchCourses_eq]

/-- C4 amended: course-code resolution follows the priority order with the
code's actual patterns — (1) the stripped record value when it is the letter
`C` (not an arbitrary letter) plus five digits, case-insensitive, uppercased;
(2) else the first `/courses/[cC]\d{5}` match in the source URL; (3) else the
same *URL* pattern applied to the filename (a plain filename without a
`/courses/` segment never matches); (4) else the raw record value stripped
and uppercased when the key is present, and `UNKNOWN` only when it is
absent. -/
theorem get_course_code_amended (rec : CourseRecord) (filename : String) :
    get_course_code rec filename = amended_resolve_course_code rec filename := by
  unfold get_course_code amended_resolve_course_code
  simp only []
  rw [specCFullCode_eq]
  split_ifs with h1 h2 h2
  · rfl
  · exfalso
    apply h2
    constructor
    · intro he
      simp [he] at h1
    · simp only [Bool.and_eq_true] at h1
      exact h1.2
  · exfalso
    apply h1
    simp [h2.1, h2.2]
  · rw [← extract_url_eq_specSearch, ← extract_url_eq_specSearch]
    cases extract_course_code_from_url (rec.metadata_source_url.getD "") with
    | some c => rfl
    | none =>
      simp only []
      cases extract_course_code_from_url filename with
      | some c => rfl
      | none =>
        simp only []
        cases rec.course_code with
        | some v => rfl
        | none => decide

theorem create_chunks_types (uuid5 : String → String) (rec : CourseRecord)
    (filename now : String) :
    (create_chunks_from_course uuid5 rec filename now).map (fun c => c.meta.chunk_type)
      = (chunkItems rec (fixCourseName (pyStrip (rec.course_name.getD "")) filename)
          (get_course_code rec filename)).map (·.ctype) := by
  simp only [create_chunks_from_course, List.map_map]
  conv_rhs =>
    rw [← List.enum_map_snd (chunkItems rec
      (fixCourseName (pyStrip (rec.course_name.getD "")) filename)
      (get_course_code rec filename)), List.map_map]
  exact List.map_congr_left (fun a _ => rfl)

theorem fieldChunkItem_ctype {v : PyVal} {field label : String} {it : ChunkItem}
    (h : fieldChunkItem v field label = some it) : it.ctype = field := by
  unfold fieldChunkItem at h
  simp only [] at h
  split_ifs at h with h1 h2
  rw [← Option.some.inj h]

theorem fieldChunkItem_isSome_iff (v : PyVal) (field label : String) :
    (fieldChunkItem v field label).isSome = true ↔
      (v.truthy = true ∧ v ≠ .str "None" ∧ (∀ s, v = .str s → pyStrip s ≠ "")
        ∧ 50 ≤ (pyStrip (format_field_value v)).length) := by
  unfold fieldChunkItem
  simp only []
  split_ifs with h1 h2
  · simp only [Option.isSome_none, Bool.false_eq_true, false_iff]
    rintro ⟨ht, hn, hws, -⟩
    simp only [Bool.or_eq_true, Bool.not_eq_true', decide_eq_true_eq] at h1
    rcases h1 with (h1 | h1) | h1
    · rw [ht] at h1
      cases h1
    · exact hn h1
    · cases v with
      | str s => exact hws s rfl (by simpa using h1)
      | none => cases h1
      | listStr xs => cases h1
      | listNT xs => cases h1
      | dict kvs => cases h1
  · simp only [Option.isSome_none, Bool.false_eq_true, false_iff]
    rintro ⟨-, -, -, hlen⟩
    simp only [Bool.or_eq_true, decide_eq_true_eq] at h2
    rcases h2 with h2 | h2
    · rw [h2] at hlen
      revert hlen
      decide
    · omega
  · simp only [Option.isSome_some, true_iff]
    simp only [Bool.or_eq_true, Bool.not_eq_true', decide_eq_true_eq, not_or] at h1 h2
    obtain ⟨⟨ha, hb⟩, hc⟩ := h1
    refine ⟨by simpa using ha, hb, ?_, ?_⟩
    · intro s hs
      subst hs
      simpa using hc
    · simp only [decide_eq_true_eq, not_or, not_lt] at h2
      exact h2.2

theorem learningOutcomesItem_ctype {rec : CourseRecord} {it : ChunkItem}
    (h : learningOutcomesItem rec = some it) : it.ctype = "learning_outcomes" := by
  unfold learningOutcomesItem at h
  simp only [] at h
  split_ifs at h with h1 h2
  rw [← Option.some.inj h]

theorem courseInfoItem_ctype {rec : CourseRecord} {n c : String} {it : ChunkItem}
    (h : courseInfoItem rec n c = some it) : it.ctype = "course_info" := by
  unfold courseInfoItem at h
  split_ifs at h with h1
  rw [← Option.some.inj h]

theorem chunkItems_field_iff (rec : CourseRecord) (name code field label : String)
    (hmem : (field, label) ∈ chunkableFields) :
    (∃ it ∈ chunkItems rec name code, it.ctype = field) ↔
      (fieldChunkItem (rec.getField field) field label).isSome = true := by
  have hnotlo : field ≠ "learning_outcomes" ∧ field ≠ "course_info" := by
    have h := (by decide :
      ∀ p ∈ chunkableFields, p.1 ≠ "learning_outcomes" ∧ p.1 ≠ "course_info")
    exact h (field, label) hmem
  have huniq := (by decide :
    ∀ p ∈ chunkableFields, ∀ q ∈ chunkableFields, p.1 = q.1 → p = q)
  constructor
  · rintro ⟨it, hit, hty⟩
    have hit2 : it ∈ fieldItems rec ∨ learningOutcomesItem rec = some it
        ∨ courseInfoItem rec name code = some it := by
      simpa [chunkItems] using hit
    rcases hit2 with hin | hin | hin
    · obtain ⟨fl, hfl, hsome⟩ := List.mem_filterMap.mp hin
      have hfty : it.ctype = fl.1 := fieldChunkItem_ctype hsome
      have hfl1 : fl.1 = field := by rw [← hfty, hty]
      have hfleq : fl = (field, label) := huniq fl hfl (field, label) hmem hfl1
      rw [hfleq] at hsome
      simp [hsome]
    · exact absurd (hty ▸ learningOutcomesItem_ctype hin) hnotlo.1
    · exact absurd (hty ▸ courseInfoItem_ctype hin) hnotlo.2
  · intro hsome
    obtain ⟨it, hit⟩ := Option.isSome_iff_exists.mp hsome
    refine ⟨it, ?_, fieldChunkItem_ctype hit⟩
    have hf : it ∈ fieldItems rec :=
      List.mem_filterMap.mpr ⟨(field, label), hmem, hit⟩
    simp [chunkItems]
    exact Or.inl hf

/-- C3: a scalar/text field of the fixed chunkable-field table produces a
chunk exactly when its value is truthy (non-empty), not the literal string
`"None"`, not whitespace-only, and the stripped formatted text is at least 50
characters long — so a 49-character field is dropped and a 50-character field
is retained. -/
theorem field_threshold_iff (uuid5 : String → String) (rec : CourseRecord)
    (filename now field label : String) (hmem : (field, label) ∈ chunkableFields) :
    ((create_chunks_from_course uuid5 rec filename now).any
        (fun c => c.meta.chunk_type == field) = true) ↔
      ((rec.getField field).truthy = true ∧ rec.getField field ≠ .str "None"
        ∧ (∀ s, rec.getField field = .str s → pyStrip s ≠ "")
        ∧ 50 ≤ (pyStrip (format_field_value (rec.getField field))).length) := by
  rw [List.any_eq_true]
  have hmap := create_chunks_types uuid5 rec filename now
  constructor
  · rintro ⟨c, hc, hcf⟩
    have hty : c.meta.chunk_type = field := by simpa using hcf
    have hfm : field ∈ (create_chunks_from_course uuid5 rec filename now).map
        (fun c => c.meta.chunk_type) :=
      List.mem_map.mpr ⟨c, hc, hty⟩
    rw [hmap] at hfm
    obtain ⟨it, hit, hitty⟩ := List.mem_map.mp hfm
    exact (fieldChunkItem_isSome_iff _ _ _).mp
      ((chunkItems_field_iff rec _ _ field label hmem).mp ⟨it, hit, hitty⟩)
  · intro hconds
    have hsome := (fieldChunkItem_isSome_iff (rec.getField field) field label).mpr hconds
    obtain ⟨it, hit, hitty⟩ := (chunkItems_field_iff rec
      (fixCourseName (pyStrip (rec.course_name.getD "")) filename)
      (get_course_code rec filename) field label hmem).mpr hsome
    have hfm : field ∈ (chunkItems rec
        (fixCourseName (pyStrip (rec.course_name.getD "")) filename)
        (get_course_code rec filename)).map (·.ctype) :=
      List.mem_map.mpr ⟨it, hit, hitty⟩
    rw [← hmap] at hfm
    obtain ⟨c, hc, hcty⟩ := List.mem_map.mp hfm
    exact ⟨c, hc, by simp [hcty]⟩

/-- C3 witness: a 50-character overview yields an overview chunk; a
49-character overview does not. -/
theorem field_threshold_iff_witness :
    ((create_chunks_from_course id w3Rec50 "c.json" "T").any
        (fun c => c.meta.chunk_type == "overview") = true)
    ∧ ((create_chunks_from_course id w3Rec49 "c.json" "T").any
        (fun c => c.meta.chunk_type == "overview") = false) := by
  constructor
  · exact (field_threshold_iff id w3Rec50 "c.json" "T" "overview" "Overview"
      (by decide)).mpr
      ⟨by decide, by decide,
        fun s hs => by injection hs with h; rw [← h]; decide, by decide⟩
  · cases hval : (create_chunks_from_course id w3Rec49 "c.json" "T").any
        (fun c => c.meta.chunk_type == "overview") with
    | false => rfl
    | true =>
      exfalso
      have hcond := (field_threshold_iff id w3Rec49 "c.json" "T" "overview" "Overview"
        (by decide)).mp hval
      exact absurd hcond.2.2.2 (by decide)

theorem key_parts_inj {t1 t2 s1 s2 u1 u2 : List Char}
    (hp1 : '|' ∉ t1) (hp2 : '|' ∉ t2) (hq1 : '|' ∉ s1) (hq2 : '|' ∉ s2)
    (h : t1 ++ '|' :: ("chunk:".data ++ (s1 ++ '|' :: ("unique:".data ++ u1)))
       = t2 ++ '|' :: ("chunk:".data ++ (s2 ++ '|' :: ("unique:".data ++ u2)))) :
    t1 = t2 ∧ s1 = s2 ∧ u1 = u2 := by
  obtain ⟨ht, hrest⟩ := append_sep_inj hp1 hp2 h
  obtain ⟨hs, hu⟩ := append_sep_inj hq1 hq2 (List.append_cancel_left hrest)
  exact ⟨ht, hs, List.append_cancel_left hu⟩

theorem chunkKey_data (code t : String) (i : Nat) (u : String) :
    (chunkKey code t i u).data
      = "course|".data ++ code.data ++ "|type:".data
        ++ (t.data ++ '|' :: ("chunk:".data
            ++ (decChars i ++ '|' :: ("unique:".data ++ u.data)))) := by
  simp only [chunkKey, decStr, String.data_append, List.append_assoc]
  rfl

theorem chunkKey_inj {code t1 t2 : String} {i1 i2 : Nat} {u1 u2 : String}
    (hp1 : '|' ∉ t1.data) (hp2 : '|' ∉ t2.data)
    (h : chunkKey code t1 i1 u1 = chunkKey code t2 i2 u2) :
    t1 = t2 ∧ i1 = i2 ∧ u1 = u2 := by
  have hd := congrArg String.data h
  rw [chunkKey_data, chunkKey_data] at hd
  obtain ⟨ht, hs, hu⟩ := key_parts_inj hp1 hp2
    (pipe_not_mem_decChars i1) (pipe_not_mem_decChars i2) (List.append_cancel_left hd)
  exact ⟨String.ext ht, decChars_injective hs, String.ext hu⟩

theorem chunkItems_ctype_nopipe (rec : CourseRecord) (n c : String) :
    ∀ it ∈ chunkItems rec n c, '|' ∉ it.ctype.data := by
  intro it hit
  have hit2 : it ∈ fieldItems rec ∨ learningOutcomesItem rec = some it
      ∨ courseInfoItem rec n c = some it := by
    simpa [chunkItems] using hit
  rcases hit2 with hin | hin | hin
  · obtain ⟨fl, hfl, hsome⟩ := List.mem_filterMap.mp hin
    rw [fieldChunkItem_ctype hsome]
    have hnp := (by decide : ∀ p ∈ chunkableFields, '|' ∉ p.1.data)
    exact hnp fl hfl
  · rw [learningOutcomesItem_ctype hin]
    decide
  · rw [courseInfoItem_ctype hin]
    decide

theorem create_chunks_map_ids (uuid5 : String → String) (rec : CourseRecord)
    (filename now : String) :
    (create_chunks_from_course uuid5 rec filename now).map (·.id)
      = (chunkItems rec (fixCourseName (pyStrip (rec.course_name.getD "")) filename)
          (get_course_code rec filename)).enum.map
          (fun p => uuid5 (chunkKey (get_course_code rec filename) p.2.ctype p.1
            (pathStem filename))) := by
  simp only [create_chunks_from_course, List.map_map]
  exact List.map_congr_left (fun a _ => rfl)

theorem create_chunks_ids_nodup (uuid5 : String → String)
    (hinj : Function.Injective uuid5) (rec : CourseRecord) (filename now : String) :
    ((create_chunks_from_course uuid5 rec filename now).map (·.id)).Nodup := by
  rw [create_chunks_map_ids]
  apply List.Nodup.map_on
  · intro x hx y hy hfxy
    have hgx := List.mem_enum_iff_getElem?.mp hx
    have hgy := List.mem_enum_iff_getElem?.mp hy
    have hpx := chunkItems_ctype_nopipe _ _ _ x.2 (List.getElem?_mem hgx)
    have hpy := chunkItems_ctype_nopipe _ _ _ y.2 (List.getElem?_mem hgy)
    obtain ⟨hty, hidx, -⟩ := chunkKey_inj hpx hpy (hinj hfxy)
    rw [← hidx] at hgy
    rw [hgx] at hgy
    exact Prod.ext hidx (Option.some.inj hgy)
  · exact List.Nodup.of_map Prod.fst
      (List.enum_map_fst _ ▸ List.nodup_range _)

/-- C2: with an injective uuid digest, for two records resolving to the same
course code but with distinct uniqueness tokens (filename stems), every chunk
id of the first record differs from every chunk id of the second, and within
each record the emitted chunk ids are pairwise distinct (the composite key
embeds the token and the strictly increasing ordinal). -/
theorem chunk_ids_unique (uuid5 : String → String) (hinj : Function.Injective uuid5)
    (r1 r2 : CourseRecord) (fn1 fn2 t1 t2 : String)
    (hcode : get_course_code r1 fn1 = get_course_code r2 fn2)
    (htok : pathStem fn1 ≠ pathStem fn2) :
    (∀ a ∈ (create_chunks_from_course uuid5 r1 fn1 t1).map (·.id),
       ∀ b ∈ (create_chunks_from_course uuid5 r2 fn2 t2).map (·.id), a ≠ b)
    ∧ ((create_chunks_from_course uuid5 r1 fn1 t1).map (·.id)).Nodup
    ∧ ((create_chunks_from_course uuid5 r2 fn2 t2).map (·.id)).Nodup := by
  refine ⟨?_, create_chunks_ids_nodup uuid5 hinj r1 fn1 t1,
    create_chunks_ids_nodup uuid5 hinj r2 fn2 t2⟩
  intro a ha b hb hab
  rw [create_chunks_map_ids] at ha hb
  obtain ⟨p, hp, hpa⟩ := List.mem_map.mp ha
  obtain ⟨q, hq, hqb⟩ := List.mem_map.mp hb
  rw [← hpa, ← hqb] at hab
  rw [← hcode] at hab
  have hppipe := chunkItems_ctype_nopipe _ _ _ p.2
    (List.getElem?_mem (List.mem_enum_iff_getElem?.mp hp))
  have hqpipe := chunkItems_ctype_nopipe _ _ _ q.2
    (List.getElem?_mem (List.mem_enum_iff_getElem?.mp hq))
  obtain ⟨-, -, hu⟩ := chunkKey_inj hppipe hqpipe (hinj hab)
  exact htok hu

/-- C2 witness: two records sharing course code `C10302` but coming from
files with distinct stems produce disjoint, duplicate-free id sets (with the
identity function standing in for the injective uuid digest). -/
theorem chunk_ids_unique_witness :
    (∀ a ∈ (create_chunks_from_course id { course_code := some "C10302" }
        "a_C10302.json" "T").map (·.id),
      ∀ b ∈ (create_chunks_from_course id { course_code := some "C10302" }
        "b_C10302.json" "T").map (·.id), a ≠ b)
    ∧ ((create_chunks_from_course id { course_code := some "C10302" }
        "a_C10302.json" "T").map (·.id)).Nodup
    ∧ ((create_chunks_from_course id { course_code := some "C10302" }
        "b_C10302.json" "T").map (·.id)).Nodup := by
  exact chunk_ids_unique id (fun a b h => h)
    { course_code := some "C10302" } { course_code := some "C10302" }
    "a_C10302.json" "b_C10302.json" "T" "T" (by decide) (by decide)

end Handbook
